import Mathlib

/-!
Verification of the fybrik mock policy manager
(`manager/controllers/mockup/policymanager.go`) and of the
status-aggregation / redaction behaviour exercised by
`manager/controllers/app/fybrik_notebook_read_flow_test.go`.

The Go code is shallowly embedded: the mock `GetPoliciesDecisions`
becomes a pure Lean function whose only non-determinism — the random
decision ID produced by `random.Hex(20)` — is passed in as an explicit
argument.  A Go `panic` (process abort) is kept distinct from a non-nil
`error` return value via the `GoOutcome` type, because several claims
are precisely about that distinction.
-/

namespace Fybrik

/-- Action types of `policymanager` (`policymanager.READ/WRITE/...`). -/
inductive ActionType where
  | Read
  | Write
  | Copy
deriving DecidableEq, Repr

/-- The `RequestAction` carried by a `GetPolicyDecisionsRequest`:
action type, destination and processing location
(`input.Action.ActionType`, `input.Action.Destination`,
`input.Action.ProcessingLocation`). -/
structure RequestAction where
  actionType : ActionType
  destination : String
  processingLocation : String
deriving DecidableEq, Repr

/-- The `Resource` of a `GetPolicyDecisionsRequest`; only its ID is used
by the mock (`input.Resource.ID`). -/
structure Resource where
  id : String
deriving DecidableEq, Repr

/-- `policymanager.GetPolicyDecisionsRequest`, restricted to the fields
the mock reads. -/
structure GetPolicyDecisionsRequest where
  resource : Resource
  action : RequestAction
deriving DecidableEq, Repr

/-- The `taxonomy.Action` values the mock constructs: either a name map
`{name: "Deny", Deny: {}}` or `{name: "RedactAction",
RedactAction: {columns: [...]}}`.  The JSON round trip through
`deserializeToTaxonomyAction` succeeds on both shapes, so they are
embedded directly as a tagged union. -/
inductive TaxAction where
  | Deny
  | RedactAction (columns : List String)
deriving DecidableEq, Repr

/-- `policymanager.ResultItem`: one enforcement action. -/
structure ResultItem where
  action : TaxAction
deriving DecidableEq, Repr

/-- `policymanager.GetPolicyDecisionsResponse`. -/
structure GetPolicyDecisionsResponse where
  decisionID : String
  result : List ResultItem
deriving DecidableEq, Repr

/-- Outcome of calling a Go function returning `(*T, error)`:
either a value, a non-nil error returned to the caller, or a `panic`
that aborts the process (a panic is *not* an error return). -/
inductive GoOutcome (α : Type) where
  | ok (val : α)
  | goError (msg : String)
  | panic (msg : String)
deriving DecidableEq, Repr

/-- Character-level core of `strings.SplitN(s, sep, 2)` for a one-character
separator: split at the first occurrence of `sep` only, producing at most
two pieces; a list with no separator yields a one-element result. -/
def goSplitN2Chars (sep : Char) : List Char → List (List Char)
  | [] => [[]]
  | c :: cs =>
    if c = sep then [[], cs]
    else
      match goSplitN2Chars sep cs with
      | [] => [[c]]
      | p :: rest => (c :: p) :: rest

/-- `strings.SplitN(s, "/", 2)`: at most two pieces, split at the first
`'/'`; a string with no separator yields a one-element list and the
empty string yields `[""]`, exactly as in Go. -/
def goSplitN2 (s : String) : List String :=
  (goSplitN2Chars '/' s.data).map (fun cs => ⟨cs⟩)

/-- The `ResultItem` appended in the three deny branches of the mock. -/
def denyItem : ResultItem := ⟨TaxAction.Deny⟩

/-- The `ResultItem` appended in the default branch of the mock:
`RedactAction` on columns `["SSN"]`. -/
def redactSSNItem : ResultItem := ⟨TaxAction.RedactAction ["SSN"]⟩

/-- Embedding of `MockPolicyManager.GetPoliciesDecisions`.  `decisionID`
stands for the value produced by `random.Hex(20)`; the credentials
argument of the Go function is unused by its body and omitted.  The
`panic` on a dataset ID that `strings.SplitN` cannot split into two
pieces is mapped to `GoOutcome.panic`. -/
def GetPoliciesDecisions (input : GetPolicyDecisionsRequest)
    (decisionID : String) : GoOutcome GetPolicyDecisionsResponse :=
  let datasetID := input.resource.id
  match goSplitN2 datasetID with
  | [_, assetID] =>
    let respResult : List ResultItem :=
      if assetID = "allow-dataset" then
        []
      else if assetID = "deny-dataset" then
        [denyItem]
      else if assetID = "allow-theshire" then
        if input.action.destination ≠ "theshire" then [denyItem] else []
      else if assetID = "deny-write" then
        if input.action.actionType = ActionType.Write then [denyItem] else []
      else
        [redactSSNItem]
    GoOutcome.ok ⟨decisionID, respResult⟩
  | _ => GoOutcome.panic ("Invalid dataset ID for mock: " ++ datasetID)

/-- The list of enforcement actions of an outcome, when it is a success. -/
def decisionResult : GoOutcome GetPolicyDecisionsResponse → Option (List ResultItem)
  | GoOutcome.ok resp => some resp.result
  | GoOutcome.goError _ => none
  | GoOutcome.panic _ => none

/-- Per-asset phases of an `AssetState` (spec section 3). -/
inductive AssetPhase where
  | Pending
  | Denied
  | Deploying
  | Ready
  | Failed
deriving DecidableEq, Repr

/-- Aggregate phases of a `RequestStatus` (spec section 3). -/
inductive RequestPhase where
  | Initializing
  | PlanPending
  | Deploying
  | Ready
  | PartiallyReady
  | Failed
  | Terminating
deriving DecidableEq, Repr

/-- One entry of an `AssetState`'s condition list, as observed by the
notebook read-flow test (`Conditions[ReadyConditionIndex].Status`). -/
structure Condition where
  condType : String
  status : Bool
  reason : String
deriving DecidableEq, Repr

/-- Per-asset observed status (spec section 3): conditions, the surfaced
access endpoint (empty string when none is available) and the phase. -/
structure AssetState where
  assetID : String
  conditions : List Condition
  endpoint : String
  phase : AssetPhase
deriving DecidableEq, Repr

/-- What one reconcile tick observes about one requested asset: whether
its decision contained a `Deny`, whether its deployed module reports
healthy, and the endpoint the module exposes (empty when none). -/
structure ModuleReport where
  denied : Bool
  healthy : Bool
  endpoint : String
deriving DecidableEq, Repr

/-- Modelled from the spec: the per-asset status recomputation of the
Reconciliation Controller is not part of the given source files (only its
end-to-end test is), so it is modelled from spec sections 3 and 4.3: an
asset whose decision contained `Deny` is `Denied`; an asset becomes
`Ready` exactly when its module reports healthy and an endpoint is
available, in which case its `Ready` condition is true and the endpoint
is surfaced; otherwise it is still `Deploying` with a false `Ready`
condition and no endpoint. -/
def computeAssetState (assetID : String) (r : ModuleReport) : AssetState :=
  if r.denied then
    ⟨assetID, [⟨"Ready", false, "asset denied by policy"⟩], "", AssetPhase.Denied⟩
  else if r.healthy && !(r.endpoint == "") then
    ⟨assetID, [⟨"Ready", true, "access module deployed"⟩], r.endpoint, AssetPhase.Ready⟩
  else
    ⟨assetID, [⟨"Ready", false, "module not ready"⟩], "", AssetPhase.Deploying⟩

/-- Modelled from the spec: the Status Reporter aggregation is not part of
the given source files, so it is modelled from spec section 4.3:
`RequestStatus.phase` is recomputed as `Ready` iff every requested
non-denied asset is `Ready` (denied assets are acknowledged-terminal and
do not block), `Failed` if some asset is `Failed`, and otherwise a
non-terminal mixed phase. -/
def computeRequestPhase (states : List AssetState) : RequestPhase :=
  if states.all fun s => s.phase == AssetPhase.Denied || s.phase == AssetPhase.Ready then
    RequestPhase.Ready
  else if states.any fun s => s.phase == AssetPhase.Failed then
    RequestPhase.Failed
  else
    RequestPhase.PartiallyReady

/-- The fixed placeholder written into redacted cells (spec Scenario C and
the notebook read-flow test, which expects `"XXXXX"` in every row of the
redacted column). -/
def redactedPlaceholder : String := "XXXXX"

/-- Modelled from the spec: the module runtime's transform execution is
external to the given source files (the notebook read-flow test only
observes its output), so redaction of one row is modelled from spec
Scenario C: each cell in a column whose name is in the redacted set is
replaced by the fixed placeholder, all other cells are unchanged.  The
row is read positionally against the header, as in the Arrow record of
the test. -/
def redactRow (redacted header row : List String) : List String :=
  (header.zip row).map fun p => if p.1 ∈ redacted then redactedPlaceholder else p.2

/-- Modelled from the spec: redaction of a whole data stream applies the
row transform to every row. -/
def redactTable (redacted header : List String) (rows : List (List String)) :
    List (List String) :=
  rows.map (redactRow redacted header)

end Fybrik

namespace Fybrik

/-- Helper: when the aggregate request phase is `Ready`, every asset state
in the list is either `Denied` or `Ready`. -/
theorem computeRequestPhase_ready_all (states : List AssetState)
    (h : computeRequestPhase states = RequestPhase.Ready) :
    ∀ t ∈ states, t.phase = AssetPhase.Denied ∨ t.phase = AssetPhase.Ready := by
  intro t ht
  unfold computeRequestPhase at h
  split at h
  · next hall =>
      have := List.all_eq_true.mp hall t ht
      simpa using this
  · split at h <;> simp at h

/-- Helper: an asset state whose phase is `Ready` was computed from a
non-denied, healthy module report with a non-empty endpoint, so its
`Ready` condition is true and its surfaced endpoint is non-empty. -/
theorem computeAssetState_ready_inv (a : String) (r : ModuleReport)
    (h : (computeAssetState a r).phase = AssetPhase.Ready) :
    computeAssetState a r
      = ⟨a, [⟨"Ready", true, "access module deployed"⟩], r.endpoint, AssetPhase.Ready⟩
      ∧ r.endpoint.isEmpty = false := by
  unfold computeAssetState at h ⊢
  split at h
  · simp at h
  · next hden =>
      split at h
      · next hh =>
          rw [if_neg hden, if_pos hh]
          refine ⟨rfl, ?_⟩
          have h2 := (Bool.and_eq_true _ _).mp hh
          have hne : ¬r.endpoint = "" := by simpa using h2.2
          cases hbe : r.endpoint.isEmpty
          · rfl
          · exact absurd ((String.isEmpty_iff r.endpoint).mp hbe) hne
      · next hh => simp at h

/-- Helper: looking up an index that is in bounds of both lists of a zip
yields the pair of the two looked-up elements. -/
theorem zip_getElem?_eq_some {α β : Type} :
    ∀ (xs : List α) (ys : List β) (i : Nat) (a : α) (b : β),
      xs[i]? = some a → ys[i]? = some b → (xs.zip ys)[i]? = some (a, b) := by
  intro xs
  induction xs with
  | nil => intro ys i a b h hb; simp at h
  | cons x xt ih =>
    intro ys i a b hx hy
    cases ys with
    | nil => simp at hy
    | cons y yt =>
      cases i with
      | zero =>
        simp at hx hy
        simp [hx, hy]
      | succ n =>
        simp at hx hy ⊢
        exact ih yt n a b hx hy

/-- Claim C1: the claim states that a dataset ID with no `/` separator
makes `GetPoliciesDecisions` return an `InvalidResource`-class error and
never abort the process.  The code instead panics: evaluated at the
malformed ID `"malformed-no-slash"`, the embedded function produces a
process abort (`GoOutcome.panic`), not an error return
(`GoOutcome.goError`). -/
theorem mock_malformed_dataset_id_panics :
    GetPoliciesDecisions ⟨⟨"malformed-no-slash"⟩, ⟨ActionType.Read, "", ""⟩⟩ "d0"
      = GoOutcome.panic "Invalid dataset ID for mock: malformed-no-slash" := by
  decide

/-- Claim C2: apart from the audit log of the decision ID,
`GetPoliciesDecisions` is a pure query: for every input (resource ID,
action context) the list of enforcement actions in the decision result is
the same across any two calls, regardless of the decision IDs the two
calls draw from the random source. -/
theorem mock_decision_result_independent_of_decision_id
    (input : GetPolicyDecisionsRequest) (d1 d2 : String) :
    decisionResult (GetPoliciesDecisions input d1)
      = decisionResult (GetPoliciesDecisions input d2) := by
  simp only [GetPoliciesDecisions]
  rcases goSplitN2 input.resource.id with _ | ⟨a, _ | ⟨b, _ | ⟨c, t⟩⟩⟩ <;> rfl

/-- Claim C3: for every well-formed dataset ID whose asset name is
`deny-dataset`, `GetPoliciesDecisions` succeeds and its decision result
is exactly one `Deny` action, regardless of action type, destination or
processing location. -/
theorem mock_deny_dataset_yields_single_deny
    (input : GetPolicyDecisionsRequest) (ns d : String)
    (h : goSplitN2 input.resource.id = [ns, "deny-dataset"]) :
    GetPoliciesDecisions input d = GoOutcome.ok ⟨d, [denyItem]⟩ := by
  simp only [GetPoliciesDecisions]
  rw [h]
  rfl

/-- Witness for C3 at the concrete request `"catalog/deny-dataset"`. -/
theorem mock_deny_dataset_yields_single_deny_witness :
    GetPoliciesDecisions ⟨⟨"catalog/deny-dataset"⟩, ⟨ActionType.Read, "dest", "loc"⟩⟩ "id0"
      = GoOutcome.ok ⟨"id0", [denyItem]⟩ :=
  mock_deny_dataset_yields_single_deny
    ⟨⟨"catalog/deny-dataset"⟩, ⟨ActionType.Read, "dest", "loc"⟩⟩ "catalog" "id0" (by decide)

/-- Claim C4: for every well-formed dataset ID whose asset name is
`deny-write`, the decision result contains a `Deny` action if and only if
the requested action type is `Write`; a `Read` request on the same asset
yields an empty decision result (equivalent to allow). -/
theorem mock_deny_write_denies_iff_write
    (input : GetPolicyDecisionsRequest) (ns d : String)
    (h : goSplitN2 input.resource.id = [ns, "deny-write"]) :
    (∃ result, decisionResult (GetPoliciesDecisions input d) = some result ∧
      (denyItem ∈ result ↔ input.action.actionType = ActionType.Write)) ∧
    (input.action.actionType = ActionType.Read →
      GetPoliciesDecisions input d = GoOutcome.ok ⟨d, []⟩) := by
  simp only [GetPoliciesDecisions, decisionResult]
  rw [h]
  constructor
  · cases hty : input.action.actionType <;> simp [decisionResult, hty]
  · intro hread
    simp [hread]

/-- Witness for C4 at the concrete request `"catalog/deny-write"` with a
`Write` action. -/
theorem mock_deny_write_denies_iff_write_witness :
    (∃ result,
      decisionResult (GetPoliciesDecisions
        ⟨⟨"catalog/deny-write"⟩, ⟨ActionType.Write, "dest", "loc"⟩⟩ "id1") = some result ∧
      (denyItem ∈ result ↔
        (⟨⟨"catalog/deny-write"⟩, ⟨ActionType.Write, "dest", "loc"⟩⟩ :
          GetPolicyDecisionsRequest).action.actionType = ActionType.Write)) ∧
    ((⟨⟨"catalog/deny-write"⟩, ⟨ActionType.Write, "dest", "loc"⟩⟩ :
        GetPolicyDecisionsRequest).action.actionType = ActionType.Read →
      GetPoliciesDecisions ⟨⟨"catalog/deny-write"⟩, ⟨ActionType.Write, "dest", "loc"⟩⟩ "id1"
        = GoOutcome.ok ⟨"id1", []⟩) :=
  mock_deny_write_denies_iff_write
    ⟨⟨"catalog/deny-write"⟩, ⟨ActionType.Write, "dest", "loc"⟩⟩ "catalog" "id1" (by decide)

/-- Claim C5: for every well-formed dataset ID whose asset name matches
none of the special mock cases, `GetPoliciesDecisions` returns a decision
whose result is exactly one `RedactAction` with column set `["SSN"]`. -/
theorem mock_default_asset_redacts_ssn
    (input : GetPolicyDecisionsRequest) (ns a d : String)
    (h : goSplitN2 input.resource.id = [ns, a])
    (h1 : a ≠ "allow-dataset") (h2 : a ≠ "deny-dataset")
    (h3 : a ≠ "allow-theshire") (h4 : a ≠ "deny-write") :
    GetPoliciesDecisions input d = GoOutcome.ok ⟨d, [redactSSNItem]⟩ := by
  simp only [GetPoliciesDecisions]
  rw [h]
  simp [h1, h2, h3, h4]

/-- Witness for C5 at the concrete request `"catalog/some-other-asset"`. -/
theorem mock_default_asset_redacts_ssn_witness :
    GetPoliciesDecisions ⟨⟨"catalog/some-other-asset"⟩, ⟨ActionType.Read, "dest", "loc"⟩⟩ "id2"
      = GoOutcome.ok ⟨"id2", [redactSSNItem]⟩ :=
  mock_default_asset_redacts_ssn
    ⟨⟨"catalog/some-other-asset"⟩, ⟨ActionType.Read, "dest", "loc"⟩⟩
    "catalog" "some-other-asset" "id2"
    (by decide) (by decide) (by decide) (by decide) (by decide)

/-- Claim C6: for every well-formed dataset ID whose asset name is
`allow-dataset`, `GetPoliciesDecisions` succeeds with an empty decision
result (equivalent to allow) while still returning the decision ID drawn
for audit. -/
theorem mock_allow_dataset_empty_result
    (input : GetPolicyDecisionsRequest) (ns d : String)
    (h : goSplitN2 input.resource.id = [ns, "allow-dataset"]) :
    GetPoliciesDecisions input d = GoOutcome.ok ⟨d, []⟩ := by
  simp only [GetPoliciesDecisions]
  rw [h]
  rfl

/-- Witness for C6 at the concrete request `"catalog/allow-dataset"`. -/
theorem mock_allow_dataset_empty_result_witness :
    GetPoliciesDecisions ⟨⟨"catalog/allow-dataset"⟩, ⟨ActionType.Copy, "dest", "loc"⟩⟩ "id3"
      = GoOutcome.ok ⟨"id3", []⟩ :=
  mock_allow_dataset_empty_result
    ⟨⟨"catalog/allow-dataset"⟩, ⟨ActionType.Copy, "dest", "loc"⟩⟩ "catalog" "id3" (by decide)

/-- Claim C9: for every well-formed dataset ID whose asset name is
`allow-theshire`, the decision result contains a `Deny` action if and
only if the requested destination is not `"theshire"`; when the
destination is `"theshire"` the result is empty (allow). -/
theorem mock_allow_theshire_denies_iff_other_destination
    (input : GetPolicyDecisionsRequest) (ns d : String)
    (h : goSplitN2 input.resource.id = [ns, "allow-theshire"]) :
    (∃ result, decisionResult (GetPoliciesDecisions input d) = some result ∧
      (denyItem ∈ result ↔ input.action.destination ≠ "theshire")) ∧
    (input.action.destination = "theshire" →
      GetPoliciesDecisions input d = GoOutcome.ok ⟨d, []⟩) := by
  simp only [GetPoliciesDecisions]
  rw [h]
  constructor
  · by_cases hdest : input.action.destination = "theshire" <;>
      simp [decisionResult, hdest]
  · intro hdest
    simp [hdest]

/-- Witness for C9 at the concrete request `"catalog/allow-theshire"`
with destination `"neverland"`. -/
theorem mock_allow_theshire_denies_iff_other_destination_witness :
    (∃ result,
      decisionResult (GetPoliciesDecisions
        ⟨⟨"catalog/allow-theshire"⟩, ⟨ActionType.Read, "neverland", "loc"⟩⟩ "id4") = some result ∧
      (denyItem ∈ result ↔
        (⟨⟨"catalog/allow-theshire"⟩, ⟨ActionType.Read, "neverland", "loc"⟩⟩ :
          GetPolicyDecisionsRequest).action.destination ≠ "theshire")) ∧
    ((⟨⟨"catalog/allow-theshire"⟩, ⟨ActionType.Read, "neverland", "loc"⟩⟩ :
        GetPolicyDecisionsRequest).action.destination = "theshire" →
      GetPoliciesDecisions ⟨⟨"catalog/allow-theshire"⟩, ⟨ActionType.Read, "neverland", "loc"⟩⟩ "id4"
        = GoOutcome.ok ⟨"id4", []⟩) :=
  mock_allow_theshire_denies_iff_other_destination
    ⟨⟨"catalog/allow-theshire"⟩, ⟨ActionType.Read, "neverland", "loc"⟩⟩ "catalog" "id4" (by decide)

/-- Claim C10: the mock classifies an asset using only the substring
after the first `/` of the dataset ID: two well-formed dataset IDs that
differ only in the text before the first `/` produce equal action lists
(under the same action context); and every dataset ID with more than two
`/`-separated segments — that is, whose `SplitN` remainder after the
first `/` still contains a `/` — is accepted and falls through to the
default redact case rather than matching a special asset name. -/
theorem mock_classification_uses_only_suffix
    (r1 r2 : GetPolicyDecisionsRequest) (p1 p2 rest d1 d2 : String)
    (hctx : r1.action = r2.action)
    (h1 : goSplitN2 r1.resource.id = [p1, rest])
    (h2 : goSplitN2 r2.resource.id = [p2, rest])
    (r3 : GetPolicyDecisionsRequest) (p3 rest3 d3 : String)
    (h3 : goSplitN2 r3.resource.id = [p3, rest3])
    (h4 : '/' ∈ rest3.data) :
    decisionResult (GetPoliciesDecisions r1 d1)
      = decisionResult (GetPoliciesDecisions r2 d2) ∧
    GetPoliciesDecisions r3 d3 = GoOutcome.ok ⟨d3, [redactSSNItem]⟩ := by
  constructor
  · simp only [GetPoliciesDecisions]
    rw [h1, h2, hctx]
    rfl
  · have hne1 : rest3 ≠ "allow-dataset" := by
      intro hcon
      subst hcon
      exact absurd h4 (by decide)
    have hne2 : rest3 ≠ "deny-dataset" := by
      intro hcon
      subst hcon
      exact absurd h4 (by decide)
    have hne3 : rest3 ≠ "allow-theshire" := by
      intro hcon
      subst hcon
      exact absurd h4 (by decide)
    have hne4 : rest3 ≠ "deny-write" := by
      intro hcon
      subst hcon
      exact absurd h4 (by decide)
    simp only [GetPoliciesDecisions]
    rw [h3]
    simp [hne1, hne2, hne3, hne4]

/-- Witness for C10 at the concrete requests `"catalog-a/deny-dataset"`
and `"catalog-b/deny-dataset"` (shared suffix) and the three-segment
request `"c/deny-write/x"`. -/
theorem mock_classification_uses_only_suffix_witness :
    decisionResult (GetPoliciesDecisions
        ⟨⟨"catalog-a/deny-dataset"⟩, ⟨ActionType.Read, "dest", "loc"⟩⟩ "id5")
      = decisionResult (GetPoliciesDecisions
        ⟨⟨"catalog-b/deny-dataset"⟩, ⟨ActionType.Read, "dest", "loc"⟩⟩ "id6") ∧
    GetPoliciesDecisions ⟨⟨"c/deny-write/x"⟩, ⟨ActionType.Read, "dest", "loc"⟩⟩ "id7"
      = GoOutcome.ok ⟨"id7", [redactSSNItem]⟩ :=
  mock_classification_uses_only_suffix
    ⟨⟨"catalog-a/deny-dataset"⟩, ⟨ActionType.Read, "dest", "loc"⟩⟩
    ⟨⟨"catalog-b/deny-dataset"⟩, ⟨ActionType.Read, "dest", "loc"⟩⟩
    "catalog-a" "catalog-b" "deny-dataset" "id5" "id6" rfl (by decide) (by decide)
    ⟨⟨"c/deny-write/x"⟩, ⟨ActionType.Read, "dest", "loc"⟩⟩ "c" "deny-write/x" "id7"
    (by decide) (by decide)

/-- Claim C7: whenever the aggregate request phase recomputed from the
per-asset module reports is `Ready`, every non-denied requested asset's
state has its `Ready` condition with status true and a non-empty
(available) access endpoint. -/
theorem request_ready_implies_assets_ready
    (assets : List (String × ModuleReport))
    (hready : computeRequestPhase (assets.map fun p => computeAssetState p.1 p.2)
      = RequestPhase.Ready)
    (s : AssetState)
    (hs : s ∈ assets.map fun p => computeAssetState p.1 p.2)
    (hnd : s.phase ≠ AssetPhase.Denied) :
    (s.conditions.find? fun c => c.condType == "Ready").map Condition.status = some true ∧
      s.endpoint.isEmpty = false := by
  have hrdy : s.phase = AssetPhase.Ready := by
    rcases computeRequestPhase_ready_all _ hready s hs with h | h
    · exact absurd h hnd
    · exact h
  rcases List.mem_map.mp hs with ⟨⟨a, r⟩, har, heq⟩
  subst heq
  obtain ⟨hceq, hne⟩ := computeAssetState_ready_inv a r hrdy
  rw [show computeAssetState (a, r).1 (a, r).2 = computeAssetState a r from rfl, hceq]
  exact ⟨rfl, hne⟩

/-- Witness for C7 with two concrete assets, one denied and one with a
healthy module exposing an endpoint. -/
theorem request_ready_implies_assets_ready_witness :
    ((computeAssetState "asset-1" ⟨false, true, "svc.fybrik-blueprints:80"⟩).conditions.find?
        fun c => c.condType == "Ready").map Condition.status = some true ∧
      (computeAssetState "asset-1" ⟨false, true, "svc.fybrik-blueprints:80"⟩).endpoint.isEmpty
        = false :=
  request_ready_implies_assets_ready
    [("asset-1", ⟨false, true, "svc.fybrik-blueprints:80"⟩), ("asset-2", ⟨true, false, ""⟩)]
    (by decide)
    (computeAssetState "asset-1" ⟨false, true, "svc.fybrik-blueprints:80"⟩)
    (by decide) (by decide)

/-- Claim C8: when a decision redacts a column set and the flow is
deployed, every row of the resulting data stream carries the fixed
placeholder `"XXXXX"` in each redacted column, while all other columns
are returned unchanged. -/
theorem redacted_stream_cells
    (redacted header : List String) (rows : List (List String))
    (j i : Nat) (row : List String) (name val : String)
    (hrow : rows[j]? = some row)
    (hname : header[i]? = some name)
    (hval : row[i]? = some val) :
    (redactTable redacted header rows)[j]? = some (redactRow redacted header row) ∧
    (redactRow redacted header row)[i]?
      = some (if name ∈ redacted then redactedPlaceholder else val) := by
  constructor
  · simp [redactTable, List.getElem?_map, hrow]
  · have hz := zip_getElem?_eq_some header row i name val hname hval
    simp [redactRow, List.getElem?_map, hz]

/-- Witness for C8 on a concrete two-column stream redacting `nameOrig`:
the redacted cell of row 0. -/
theorem redacted_stream_cells_witness :
    (redactTable ["nameOrig"] ["step", "nameOrig"] [["1", "C1231006815"]])[0]?
      = some (redactRow ["nameOrig"] ["step", "nameOrig"] ["1", "C1231006815"]) ∧
    (redactRow ["nameOrig"] ["step", "nameOrig"] ["1", "C1231006815"])[1]?
      = some (if "nameOrig" ∈ ["nameOrig"] then redactedPlaceholder else "C1231006815") :=
  redacted_stream_cells ["nameOrig"] ["step", "nameOrig"] [["1", "C1231006815"]]
    0 1 ["1", "C1231006815"] "nameOrig" "C1231006815"
    (by decide) (by decide) (by decide)

end Fybrik
